import Mathlib

set_option maxRecDepth 8000

/-!
A shallow embedding of the FAQ scraper's extraction core. The DOM is a pure tree,
browser selector queries are tree traversals, and each extraction routine of the
repository is translated function by function. String primitives are implemented
over `List Char` so that every definition evaluates by kernel reduction.
-/

/-! ### String primitives -/

/-- The whitespace characters stripped by Python's `str.strip()`. -/
def isPySpace (c : Char) : Bool :=
  c == ' ' || c == '\t' || c == '\n' || c == '\r'

/-- Python's `str.strip()`: remove leading and trailing whitespace. -/
def pyStrip (s : String) : String :=
  String.mk (((s.data.dropWhile isPySpace).reverse.dropWhile isPySpace).reverse)

def startsWithL : List Char → List Char → Bool
  | [], _ => true
  | _ :: _, [] => false
  | a :: as, b :: bs => a == b && startsWithL as bs

def hasSubList (needle : List Char) : List Char → Bool
  | [] => needle.isEmpty
  | c :: rest => startsWithL needle (c :: rest) || hasSubList needle rest

/-- Python's substring containment test (the `in` operator on strings). -/
def containsSub (hay needle : String) : Bool :=
  hasSubList needle.data hay.data

/-- Split a character list at every occurrence of a separator character. -/
def splitCharL (sep : Char) : List Char → List (List Char)
  | [] => [[]]
  | c :: rest =>
    if c == sep then [] :: splitCharL sep rest
    else
      match splitCharL sep rest with
      | [] => [[c]]
      | w :: ws => (c :: w) :: ws

/-- Split a string at every occurrence of a separator character
(Python's `str.split(sep)` for a one-character separator). -/
def splitChar (sep : Char) (s : String) : List String :=
  (splitCharL sep s.data).map String.mk

/-- Python's `sep.join(parts)`. -/
def joinWith (sep : String) : List String → String
  | [] => ""
  | [s] => s
  | s :: rest => s ++ sep ++ joinWith sep rest

/-- CSS class-token matching: the `class` attribute split on spaces contains the token. -/
def hasClassTok (cls tok : String) : Bool :=
  (splitChar ' ' cls).contains tok

/-! ### DOM model -/

/-- A DOM element: tag name, `class` attribute, `href` attribute (empty string when
absent), rendered inner text, and child elements in document order. -/
inductive Node : Type where
  | mk (tag className href innerText : String) (children : List Node)

def Node.tag : Node → String
  | .mk t _ _ _ _ => t

def Node.className : Node → String
  | .mk _ c _ _ _ => c

def Node.href : Node → String
  | .mk _ _ h _ _ => h

def Node.innerText : Node → String
  | .mk _ _ _ i _ => i

def Node.children : Node → List Node
  | .mk _ _ _ _ cs => cs

mutual

/-- A node followed by all its descendants, in document order. -/
def descTree : Node → List Node
  | .mk t c h i cs => Node.mk t c h i cs :: descForest cs

/-- All elements of a forest in document order: each root followed by its subtree. -/
def descForest : List Node → List Node
  | [] => []
  | n :: rest => descTree n ++ descForest rest

end

/-- Descendant elements of a node in document order (the node itself excluded),
modelling an element-scoped selector query. -/
def Node.descendants (n : Node) : List Node :=
  descForest n.children

/-- One extracted FAQ entry, as built by the extraction routines. -/
structure FaqRecord where
  question : String
  answer : String
deriving DecidableEq, Repr

/-! ### Embedding of `extract_faq_claim` (src/prod-scraper/faq_claim.py) -/

/-- The question-marker test used by selector queries (CSS `h6.card-title`):
class-token match. -/
def isQuestionTok (n : Node) : Bool :=
  n.tag == "h6" && hasClassTok n.className "card-title"

/-- The question-marker test of the stop condition in `extract_faq_claim`
(`tag_name == 'h6' and 'card-title' in class_attr`): substring match. -/
def isQuestionSub (n : Node) : Bool :=
  n.tag == "h6" && containsSub n.className "card-title"

/-- List-item processing of `extract_faq_claim`: each descendant `li` with non-empty
trimmed text is appended, bulleted for `ul`, and numbered by the cumulative fragment
count plus one for `ol`. -/
def liLines (listTag : String) (acc : List String) (lis : List Node) : List String :=
  lis.foldl
    (fun a li =>
      let t := pyStrip li.innerText
      if t = "" then a
      else a ++ [(if listTag == "ul" then "• " else toString (a.length + 1) ++ ". ") ++ t])
    acc

/-- One sibling step of the answer loop of `extract_faq_claim`: a `p` with
`card-text` in its class contributes its stripped text when non-empty; a `ul` or `ol`
contributes one line per descendant `li`; other tags contribute nothing. -/
def claimStep (acc : List String) (e : Node) : List String :=
  if e.tag == "p" && containsSub e.className "card-text" then
    let t := pyStrip e.innerText
    if t = "" then acc else acc ++ [t]
  else if e.tag == "ul" || e.tag == "ol" then
    liLines e.tag acc (e.descendants.filter (fun n => n.tag == "li"))
  else acc

/-- The answer loop of `extract_faq_claim` over the question's following siblings:
stops at the first sibling that is itself a question marker. -/
def assembleClaim (acc : List String) : List Node → List String
  | [] => acc
  | e :: rest => if isQuestionSub e then acc else assembleClaim (claimStep acc e) rest

mutual

/-- The question nodes inside one node's subtree, each paired with its following
siblings. -/
def questionsTree : Node → List (Node × List Node)
  | .mk _ _ _ _ cs => questionsForest cs

/-- Each descendant question node (`h6.card-title`) of a forest paired with its
following siblings, in document order. -/
def questionsForest : List Node → List (Node × List Node)
  | [] => []
  | n :: rest =>
    (if isQuestionTok n then [(n, rest)] else []) ++ (questionsTree n ++ questionsForest rest)

end

/-- The first `div.card-body` element of a page
(`page.locator('div.card-body').first`). -/
def firstCardBody (page : Node) : Option Node :=
  (descTree page).find? (fun n => n.tag == "div" && hasClassTok n.className "card-body")

/-- The record built by `extract_faq_claim` for one question: stripped question text;
fragments joined with a blank line, or an empty answer string when no fragment was
found. -/
def mkClaimRecord (q : Node) (sibs : List Node) : FaqRecord :=
  let parts := assembleClaim [] sibs
  { question := pyStrip q.innerText,
    answer := if parts = [] then "" else joinWith "\n\n" parts }

/-- Embedding of `extract_faq_claim`: find the first card-body container, enumerate
its question nodes, and build one record per question. -/
def extract_faq_claim (page : Node) : List FaqRecord :=
  match firstCardBody page with
  | none => []
  | some cb =>
    (questionsForest cb.children).foldl
      (fun acc p => acc ++ [mkClaimRecord p.1 p.2]) []

/-! ### Embedding of `extract_useful_link` (src/prod-scraper/useful_link.py) -/

/-- Embedding of `extract_useful_link`: every descendant `a` element of the first
card-body container with non-empty stripped text and non-empty `href` yields one
record pairing the link text with a markdown reference; other links are skipped. -/
def extract_useful_link (page : Node) : List FaqRecord :=
  match firstCardBody page with
  | none => []
  | some cb =>
    (cb.descendants.filter (fun n => n.tag == "a")).foldl
      (fun acc a =>
        let link_text := pyStrip a.innerText
        let href := a.href
        if link_text = "" ∨ href = "" then acc
        else acc ++ [{ question := link_text,
                       answer := "[" ++ link_text ++ "](" ++ href ++ ")" }])
      []

/-! ### Embedding of the in-handler extraction of src/Playwright/lambda_function.py
(the active `lambda_handler`). DOM queries are modelled as pure tree lookups. -/

def isListTag (n : Node) : Bool :=
  n.tag == "ul" || n.tag == "ol"

/-- The marker put before a top-level list item: a cumulative ordinal for an ordered
list, a dash for an unordered one. -/
def pwTopMark (ordered : Bool) (a : List String) : String :=
  if ordered then toString (a.length + 1) ++ ". " else "- "

/-- The marker put before a nested list item: two spaces of indent, then the same
rule keyed on the nested list's own tag. -/
def pwNestMark (ordered : Bool) (a : List String) : String :=
  if ordered then "  " ++ toString (a.length + 1) ++ ". " else "  - "

/-- The nested-list pass run for one list item: every list nested inside the item
contributes one indented line per descendant `li`. -/
def pwNestedLines (acc : List String) (item : Node) : List String :=
  (item.descendants.filter isListTag).foldl
    (fun a nested =>
      (nested.descendants.filter (fun n => n.tag == "li")).foldl
        (fun a ni => a ++ [pwNestMark (nested.tag == "ol") a ++ pyStrip ni.innerText]) a)
    acc

/-- One sibling step of the Playwright handler's answer loop: paragraphs carrying
`card-text` contribute their stripped text when non-empty; for a `ul`/`ol` every
descendant `li` contributes a marked line (no emptiness check) followed by its
nested-list lines. -/
def pwStep (acc : List String) (sib : Node) : List String :=
  if sib.tag == "p" && containsSub sib.className "card-text" then
    (let t := pyStrip sib.innerText
     if t = "" then acc else acc ++ [t])
  else if isListTag sib then
    (sib.descendants.filter (fun n => n.tag == "li")).foldl
      (fun a item =>
        pwNestedLines (a ++ [pwTopMark (sib.tag == "ol") a ++ pyStrip item.innerText]) item)
      acc
  else acc

/-- The sibling walk of the Playwright handler: collect following siblings up to the
first `h6.card-title` (the JS `nextElementSibling` loop), then fold the answer step. -/
def pwFragments (sibs : List Node) : List String :=
  (sibs.takeWhile (fun n => !isQuestionTok n)).foldl pwStep []

/-- The handler's fallback scan: every `p.card-text` descendant of the ancestor
card-body container contributes its stripped text when non-empty. -/
def pwFallback (cb : Node) : List String :=
  (cb.descendants.filter (fun n => n.tag == "p" && hasClassTok n.className "card-text")).foldl
    (fun a p => let t := pyStrip p.innerText; if t = "" then a else a ++ [t]) []

/-- The handler's answer for one question: the structured sibling fragments, or, when
they are empty, the fallback scan of the ancestor card-body (when one exists). -/
def pwAnswer (sibs : List Node) (cb : Option Node) : List String :=
  let fr := pwFragments sibs
  if fr = [] then
    match cb with
    | some c => pwFallback c
    | none => fr
  else fr

/-- The record the Playwright handler appends for one question: stripped question
text and the answer lines joined with a single newline, or no record at all when the
answer line list is empty. -/
def pwMakeRecord (q : Node) (sibs : List Node) (cb : Option Node) : Option FaqRecord :=
  let ans := pwAnswer sibs cb
  if ans = [] then none
  else some { question := pyStrip q.innerText, answer := joinWith "\n" ans }

/-- The base origin hardcoded in every handler. -/
def BASE_URL : String := "https://mycash.utah.gov"

/-- URL resolution of the Playwright handler: event URLs are used verbatim when
present; otherwise the URLs discovered from the navigation menu (links with a
non-empty `href`, prefixed with the base origin) are used, with no further fallback. -/
def playwrightResolveUrls (eventUrls : List String) (navHrefs : List String) : List String :=
  if eventUrls = [] then (navHrefs.filter (fun h => h ≠ "")).map (fun h => BASE_URL ++ h)
  else eventUrls

/-! ### Embedding of the category dispatch and the scraping loops
(src/prod-scraper/lambda_function.py and src/new-playwright/lambda_function.py) -/

def CATEGORY_MAPPING : List (String × String) :=
  [("faq-general", "General"), ("faq-claim", "Claiming Property"),
   ("faq-evidence", "Evidence"), ("faq-report", "Reporting Property"),
   ("finder-info", "Fee Finder"), ("useful-link", "Useful Links")]

def titleWordL : List Char → List Char
  | [] => []
  | c :: rest => c.toUpper :: rest.map Char.toLower

/-- Python's `category_id.replace('-', ' ').title()`. -/
def slugTitle (cid : String) : String :=
  joinWith " " ((splitChar '-' cid).map (fun w => String.mk (titleWordL w.data)))

def categoryDisplayName (cid : String) : String :=
  match CATEGORY_MAPPING.lookup cid with
  | some n => n
  | none => slugTitle cid

/-- Embedding of `FAQScraper.extract_category_from_url`:
`url.split('/')[-1].split('#')[0]` with its display name. -/
def extract_category_from_url (url : String) : String × String :=
  let cid := (splitChar '#' ((splitChar '/' url).getLastD "")).headD ""
  (cid, categoryDisplayName cid)

/-- Modelled from the spec: `faq_general.py` is referenced by both handlers but its
module is absent from the sources; spec section 4.3 assigns the general category the
same Q&A-card strategy that `extract_faq_claim` implements. -/
def extract_faq_general : Node → List FaqRecord := extract_faq_claim

/-- Modelled from the spec: `faq_evidence.py` is absent from the sources; spec
section 4.3 assigns the evidence category the Q&A-card strategy. -/
def extract_faq_evidence : Node → List FaqRecord := extract_faq_claim

/-- Modelled from the spec: `faq_report.py` is absent from the sources; spec
section 4.3 assigns the report category the Q&A-card strategy. -/
def extract_faq_report : Node → List FaqRecord := extract_faq_claim

/-- Modelled from the spec: `finder_info.py` is absent from the sources; spec
section 4.3 assigns the finder-info category the Q&A-card strategy. -/
def extract_finder_info : Node → List FaqRecord := extract_faq_claim

/-- Embedding of `FAQScraper.get_extraction_method`: the category-to-strategy table,
defaulting to the general strategy for unknown identifiers. -/
def get_extraction_method (cid : String) : Node → List FaqRecord :=
  if cid == "faq-general" then extract_faq_general
  else if cid == "faq-claim" then extract_faq_claim
  else if cid == "faq-evidence" then extract_faq_evidence
  else if cid == "faq-report" then extract_faq_report
  else if cid == "finder-info" then extract_finder_info
  else if cid == "useful-link" then extract_useful_link
  else extract_faq_general

/-- Embedding of `FAQScraper.get_default_faq_urls`: the six hardcoded category URLs. -/
def get_default_faq_urls (base_url : String) : List String :=
  [base_url ++ "/app/faq-general", base_url ++ "/app/faq-claim",
   base_url ++ "/app/faq-evidence", base_url ++ "/app/faq-report",
   base_url ++ "/app/finder-info", base_url ++ "/app/useful-link"]

/-- The outcome of one page navigation: a loaded page, or a timeout/network error. -/
inductive NavResult where
  | ok (page : Node)
  | err (msg : String)

def NavResult.isErr : NavResult → Bool
  | .ok _ => false
  | .err _ => true

/-- The retry loop of the prod-scraper `FAQScraper.scrape_single_category`: attempt
navigation, retry on failure while attempts remain, and return the category name
with an empty record list once retries are exhausted. -/
def scrapeAttempts (cid cname : String) (nav : Nat → NavResult) : Nat → Nat → String × List FaqRecord
  | _, 0 => (cname, [])
  | attempt, fuel + 1 =>
    match nav attempt with
    | .ok page => (cname, get_extraction_method cid page)
    | .err _ => if fuel = 0 then (cname, []) else scrapeAttempts cid cname nav (attempt + 1) fuel

/-- Embedding of the prod-scraper `FAQScraper.scrape_single_category`
(max_retries = 2, so three attempts): every navigation failure is caught here and
converted into `(category_name, [])`; nothing is raised to the caller. -/
def scrape_single_category (url : String) (nav : Nat → NavResult) : String × List FaqRecord :=
  let p := extract_category_from_url url
  scrapeAttempts p.1 p.2 nav 0 3

/-- Embedding of the new-playwright `FAQScraper.scrape_single_category` (no retry):
a navigation failure is caught and converted into `(category_name, [])`. -/
def scrape_single_category_np (url : String) (nav : NavResult) : String × List FaqRecord :=
  let p := extract_category_from_url url
  match nav with
  | .ok page => (p.2, get_extraction_method p.1 page)
  | .err _ => (p.2, [])

/-- Python dict assignment `d[k] = v`: replace the value of an existing key in place,
otherwise append the new key at the end. -/
def dictInsert (d : List (String × List FaqRecord)) (k : String) (v : List FaqRecord) :
    List (String × List FaqRecord) :=
  if d.any (fun p => p.1 == k) then d.map (fun p => if p.1 == k then (k, v) else p)
  else d ++ [(k, v)]

/-- The run state of the prod-scraper `FAQScraper.scrape_all_categories`. -/
structure ScrapeOutcomeProd where
  grouped : List (String × List FaqRecord)
  total : Nat
  errors : List String
deriving DecidableEq, Repr

/-- One iteration of the prod-scraper loop over URLs: scrape the category, store its
result under the category name, add its count. The `errors.append` branch of the
source fires only on an exception escaping `scrape_single_category`; since that
function catches every navigation failure and returns normally, the error list is
carried unchanged. -/
def prodStep (nav : String → Nat → NavResult) (st : ScrapeOutcomeProd) (url : String) :
    ScrapeOutcomeProd :=
  let r := scrape_single_category url (nav url)
  { grouped := dictInsert st.grouped r.1 r.2,
    total := st.total + r.2.length,
    errors := st.errors }

/-- Embedding of the prod-scraper `FAQScraper.scrape_all_categories`: one
`scrape_single_category` call per URL, its result stored under the category name. -/
def prodScrapeAll (urls : List String) (nav : String → Nat → NavResult) : ScrapeOutcomeProd :=
  urls.foldl (prodStep nav) { grouped := [], total := 0, errors := [] }

/-- One iteration of the new-playwright loop over URLs. -/
def npStep (nav : String → NavResult) (st : List (String × List FaqRecord) × Nat)
    (url : String) : List (String × List FaqRecord) × Nat :=
  let r := scrape_single_category_np url (nav url)
  (dictInsert st.1 r.1 r.2, st.2 + r.2.length)

/-- Embedding of the new-playwright `FAQScraper.scrape_all_categories`: one
`scrape_single_category` call per URL, its result stored under the category name,
with a running total. -/
def npScrapeAll (urls : List String) (nav : String → NavResult) :
    List (String × List FaqRecord) × Nat :=
  urls.foldl (npStep nav) ([], 0)

/-! ### Shapes and concrete inputs used by the claim theorems -/

/-- A leaf list item. -/
def mkLi (t : String) : Node := Node.mk "li" "" "" t []

/-- A flat list element (`ul` or `ol`) whose items are leaf `li` nodes. -/
def mkListNode (tag : String) (ts : List String) : Node :=
  Node.mk tag "" "" "" (ts.map mkLi)

/-- An ordered list whose single item carries the text `t` and a directly nested
list with tag `tg` and leaf items `us`. -/
def olNest (t tg : String) (us : List String) : Node :=
  Node.mk "ol" "" "" "" [Node.mk "li" "" "" t [mkListNode tg us]]

/-- Ordinal-marked lines: item `i` of the list is marked with the ordinal `k + i + 1`
after the given indent. -/
def ordLines (ind : String) : Nat → List String → List String
  | _, [] => []
  | k, t :: ts => (ind ++ toString (k + 1) ++ ". " ++ t) :: ordLines ind (k + 1) ts

/-- The question nodes of a page as `extract_faq_claim` selects them: all
`h6.card-title` descendants of the first card-body container. -/
def questionNodes (page : Node) : List Node :=
  match firstCardBody page with
  | none => []
  | some cb => cb.descendants.filter isQuestionTok

/-- The question nodes of the first card-body container paired with their following
siblings. -/
def claimQuestions (page : Node) : List (Node × List Node) :=
  match firstCardBody page with
  | none => []
  | some cb => questionsForest cb.children

/-- The declarative form of the fallback scan: stripped texts of all `p.card-text`
descendants of the container, empty ones dropped. -/
def fallbackTexts (cb : Node) : List String :=
  ((cb.descendants.filter (fun n => n.tag == "p" && hasClassTok n.className "card-text")).map
      (fun n => pyStrip n.innerText)).filter (fun t => t ≠ "")

/-- The declarative form of the fallback for an optional container. -/
def fallbackTextsOpt : Option Node → List String
  | none => []
  | some cb => fallbackTexts cb

/-- An answer paragraph (`p.card-text`) with the given text. -/
def mkP (t : String) : Node := Node.mk "p" "card-text" "" t []

/-- A question heading (`h6.card-title`) with the given text. -/
def mkH6 (t : String) : Node := Node.mk "h6" "card-title" "" t []

/-- A category page whose single question heading carries only whitespace. -/
def c1CexPage : Node :=
  Node.mk "html" "" "" ""
    [Node.mk "div" "card-body" "" "" [mkH6 "   "]]

/-- A category URL whose navigation will be made to fail in counterexamples. -/
def c8Url : String := "https://mycash.utah.gov/app/faq-claim"

/-- A navigation oracle that fails every attempt for every URL. -/
def c8NavFail : String → Nat → NavResult := fun _ _ => NavResult.err "timeout"

/-! ### Helper lemmas -/

theorem Node.tag_mk (t c h i : String) (cs : List Node) :
    (Node.mk t c h i cs).tag = t := rfl

theorem Node.className_mk (t c h i : String) (cs : List Node) :
    (Node.mk t c h i cs).className = c := rfl

theorem Node.innerText_mk (t c h i : String) (cs : List Node) :
    (Node.mk t c h i cs).innerText = i := rfl

theorem Node.children_mk (t c h i : String) (cs : List Node) :
    (Node.mk t c h i cs).children = cs := rfl

theorem descTree_eq (n : Node) : descTree n = n :: descForest n.children := by
  cases n
  rfl

theorem questionsTree_eq (n : Node) : questionsTree n = questionsForest n.children := by
  cases n
  rfl

theorem foldl_append_singleton {α β : Type} (f : α → β) (l : List α) :
    ∀ acc : List β, l.foldl (fun a x => a ++ [f x]) acc = acc ++ l.map f := by
  induction l with
  | nil => intro acc; simp
  | cons x l ih => intro acc; simp [ih]

theorem questionsForest_map_fst (cs : List Node) :
    (questionsForest cs).map Prod.fst = (descForest cs).filter isQuestionTok := by
  refine descForest.induct
    (fun n => (questionsTree n).map Prod.fst = (Node.descendants n).filter isQuestionTok)
    (fun l => (questionsForest l).map Prod.fst = (descForest l).filter isQuestionTok)
    ?_ ?_ ?_ cs
  · intro t c h i cs ih
    simpa [questionsTree, Node.descendants] using ih
  · simp [questionsForest, descForest]
  · intro n rest ih1 ih2
    rw [questionsForest, descForest, descTree_eq]
    rcases hq : isQuestionTok n with _ | _ <;>
      simp_all [List.filter_append, Node.descendants, hq]

/-! ### Claim C1 -/

/-- Claim C1 counterexample: on a page whose single question heading strips to the
empty string, `extract_faq_claim` records a FaqRecord whose question is the empty
string, contradicting the claim that every produced FaqRecord has a non-empty
question. -/
theorem c1_counterexample :
    extract_faq_claim c1CexPage = [{ question := "", answer := "" }] := by decide

/-- Claim C1 (amended): for every category page, `extract_faq_claim` yields exactly
one record per question node (a question whose answer loop yields no fragment is
still recorded, with an empty answer string), and each record is built by
`mkClaimRecord`, whose question is the stripped text of its question node — possibly
empty, since non-emptiness is not enforced. -/
theorem c1_amended_record_shape (page : Node) :
    (extract_faq_claim page).length = (questionNodes page).length ∧
    extract_faq_claim page = (claimQuestions page).map (fun p => mkClaimRecord p.1 p.2) := by
  have hmap : extract_faq_claim page = (claimQuestions page).map (fun p => mkClaimRecord p.1 p.2) := by
    cases hcb : firstCardBody page with
    | none => simp [extract_faq_claim, claimQuestions, hcb]
    | some cb =>
      simp only [extract_faq_claim, claimQuestions, hcb]
      simpa using foldl_append_singleton (fun p : Node × List Node => mkClaimRecord p.1 p.2) _ []
  refine ⟨?_, hmap⟩
  rw [hmap]
  cases hcb : firstCardBody page with
  | none => simp [claimQuestions, questionNodes, hcb]
  | some cb =>
    have h := congrArg List.length (questionsForest_map_fst cb.children)
    simp only [List.length_map] at h
    simp [claimQuestions, questionNodes, hcb, Node.descendants, h]

/-! ### Claim C2 -/

theorem string_empty_append (s : String) : "" ++ s = s := by
  cases s
  rfl

theorem descForest_map_mkLi (ts : List String) : descForest (ts.map mkLi) = ts.map mkLi := by
  induction ts with
  | nil => simp [descForest]
  | cons t ts ih => simp [descForest, descTree_eq, mkLi, Node.children_mk, ih]

theorem filter_li_map_mkLi (ts : List String) :
    (ts.map mkLi).filter (fun n => n.tag == "li") = ts.map mkLi := by
  induction ts with
  | nil => simp
  | cons t ts ih => simp [mkLi, Node.tag_mk, ih]

theorem liLines_ol_map_mkLi (ts : List String) :
    ∀ acc : List String, (∀ t ∈ ts, pyStrip t ≠ "") →
      liLines "ol" acc (ts.map mkLi) = acc ++ ordLines "" acc.length (ts.map pyStrip) := by
  induction ts with
  | nil => intro acc _; simp [liLines, ordLines]
  | cons t ts ih =>
    intro acc h
    have ht : pyStrip t ≠ "" := h t (by simp)
    have hrest : ∀ u ∈ ts, pyStrip u ≠ "" := fun u hu => h u (by simp [hu])
    have hstep : liLines "ol" acc (mkLi t :: ts.map mkLi)
        = liLines "ol" (acc ++ [toString (acc.length + 1) ++ ". " ++ pyStrip t]) (ts.map mkLi) := by
      simp [liLines, mkLi, Node.innerText_mk, ht]
    rw [List.map_cons, hstep, ih _ hrest]
    simp [ordLines, string_empty_append]

/-- Claim C2: in the answer loop of `extract_faq_claim`, each item of an ordered
list is prefixed with the current cumulative fragment count plus one — the count of
all fragments appended so far, not the item's position in its list — so the items
`["A", "B"]` yield `["1. A", "2. B"]` with no preceding fragment and
`["2. A", "3. B"]` after one preceding paragraph fragment. -/
theorem c2_ordinal_cumulative (acc : List String) (ts : List String)
    (h : ∀ t ∈ ts, pyStrip t ≠ "") :
    claimStep acc (mkListNode "ol" ts) = acc ++ ordLines "" acc.length (ts.map pyStrip) := by
  have hdesc : (mkListNode "ol" ts).descendants.filter (fun n => n.tag == "li") = ts.map mkLi := by
    simp [mkListNode, Node.descendants, Node.children_mk, descForest_map_mkLi, filter_li_map_mkLi]
  have hc1 : ((mkListNode "ol" ts).tag == "p" && containsSub (mkListNode "ol" ts).className "card-text") = false := rfl
  have hc2 : ((mkListNode "ol" ts).tag == "ul" || (mkListNode "ol" ts).tag == "ol") = true := rfl
  rw [claimStep, hc1, hc2]
  simp only [Bool.false_eq_true, if_false, if_true]
  rw [hdesc]
  have : (mkListNode "ol" ts).tag = "ol" := rfl
  rw [this]
  exact liLines_ol_map_mkLi ts acc h

/-- Claim C2 witness: the claim's two concrete scenarios. -/
theorem c2_ordinal_cumulative_witness :
    claimStep [] (mkListNode "ol" ["A", "B"]) = ["1. A", "2. B"] ∧
    claimStep ["P"] (mkListNode "ol" ["A", "B"]) = ["P", "2. A", "3. B"] := by
  constructor
  · rw [c2_ordinal_cumulative [] ["A", "B"] (by decide)]
    decide
  · rw [c2_ordinal_cumulative ["P"] ["A", "B"] (by decide)]
    decide

/-! ### Claim C3 -/

theorem assembleClaim_stop : ∀ (pre : List Node) (acc : List String) (m : Node) (post : List Node),
    isQuestionSub m = true → (∀ n ∈ pre, isQuestionSub n = false) →
    assembleClaim acc (pre ++ m :: post) = assembleClaim acc pre := by
  intro pre
  induction pre with
  | nil => intro acc m post hm _; simp [assembleClaim, hm]
  | cons e pre ih =>
    intro acc m post hm hpre
    have he : isQuestionSub e = false := hpre e (by simp)
    have hrest : ∀ n ∈ pre, isQuestionSub n = false := fun n hn => hpre n (by simp [hn])
    simp only [List.cons_append, assembleClaim, he, Bool.false_eq_true, if_false]
    exact ih (claimStep acc e) m post hm hrest

theorem takeWhile_all (p : Node → Bool) : ∀ l : List Node, (∀ n ∈ l, p n = true) →
    l.takeWhile p = l := by
  intro l
  induction l with
  | nil => intro _; rfl
  | cons e l ih =>
    intro h
    simp only [List.takeWhile_cons, h e (by simp), if_true]
    rw [ih (fun n hn => h n (by simp [hn]))]

theorem takeWhile_stop (p : Node → Bool) : ∀ (pre : List Node) (m : Node) (post : List Node),
    p m = false → (∀ n ∈ pre, p n = true) →
    (pre ++ m :: post).takeWhile p = pre := by
  intro pre
  induction pre with
  | nil => intro m post hm _; simp [List.takeWhile, hm]
  | cons e pre ih =>
    intro m post hm hpre
    have he : p e = true := hpre e (by simp)
    have hrest : ∀ n ∈ pre, p n = true := fun n hn => hpre n (by simp [hn])
    simp only [List.cons_append, List.takeWhile_cons, he, if_true]
    rw [ih m post hm hrest]

/-- Claim C3: both answer assemblers consume only the following siblings strictly
before the first sibling that is itself a question marker (`h6` with class
`card-title`); the marker and everything after it contribute no fragment — the
fragment list equals the one computed from the siblings before the marker alone. -/
theorem c3_stop_at_marker (acc : List String) (pre post : List Node) (m : Node)
    (hmSub : isQuestionSub m = true) (hmTok : isQuestionTok m = true)
    (hpreSub : ∀ n ∈ pre, isQuestionSub n = false)
    (hpreTok : ∀ n ∈ pre, isQuestionTok n = false) :
    assembleClaim acc (pre ++ m :: post) = assembleClaim acc pre ∧
    pwFragments (pre ++ m :: post) = pwFragments pre := by
  refine ⟨assembleClaim_stop pre acc m post hmSub hpreSub, ?_⟩
  unfold pwFragments
  rw [takeWhile_stop (fun n => !isQuestionTok n) pre m post (by simp [hmTok])
    (fun n hn => by simp [hpreTok n hn]),
    takeWhile_all (fun n => !isQuestionTok n) pre (fun n hn => by simp [hpreTok n hn])]

/-- Claim C3 witness: a paragraph, then a question marker, then another paragraph —
the marker and the trailing paragraph contribute nothing. -/
theorem c3_stop_at_marker_witness :
    assembleClaim [] ([mkP "A"] ++ mkH6 "Q2" :: [mkP "B"]) = assembleClaim [] [mkP "A"] ∧
    pwFragments ([mkP "A"] ++ mkH6 "Q2" :: [mkP "B"]) = pwFragments [mkP "A"] :=
  c3_stop_at_marker [] [mkP "A"] [mkP "B"] (mkH6 "Q2") (by decide) (by decide)
    (by decide) (by decide)

/-! ### Claim C4 -/

theorem foldl_strip_filter (ps : List Node) : ∀ a : List String,
    ps.foldl (fun a p => let t := pyStrip p.innerText; if t = "" then a else a ++ [t]) a
      = a ++ ((ps.map (fun n => pyStrip n.innerText)).filter (fun t => t ≠ "")) := by
  induction ps with
  | nil => intro a; simp
  | cons p ps ih =>
    intro a
    by_cases hp : pyStrip p.innerText = "" <;>
      simp [ih, hp]

theorem pwFallback_eq (cb : Node) : pwFallback cb = fallbackTexts cb := by
  unfold pwFallback fallbackTexts
  simpa using foldl_strip_filter _ []

/-- Claim C4: for every question context of the Playwright handler, the fallback scan
of the ancestor card-body container is used exactly when the structured sibling walk
produced zero fragments; when at least one structured fragment exists the answer is
the structured fragments untouched, and when the fallback runs the answer is the
stripped texts of all `p.card-text` descendants of the container (empty ones
dropped). -/
theorem c4_fallback_iff_empty (sibs : List Node) (cb : Option Node) :
    pwAnswer sibs cb = if pwFragments sibs = [] then fallbackTextsOpt cb else pwFragments sibs := by
  unfold pwAnswer
  by_cases h : pwFragments sibs = []
  · cases cb with
    | none => simp [h, fallbackTextsOpt]
    | some c => simp [h, fallbackTextsOpt, pwFallback_eq]
  · simp [h]

/-! ### Claim C5 -/

/-- Claim C5 counterexample: the Playwright handler joins the two paragraph
fragments `A` and `B` with a single newline, not a blank line, and for an empty
fragment sequence it produces no record at all instead of a record with an empty
answer string. -/
theorem c5_counterexample :
    pwMakeRecord (mkH6 "Q") [mkP "A", mkP "B"] none
      = some { question := "Q", answer := "A\nB" } ∧
    ("A\nB" : String) ≠ "A\n\nB" ∧
    pwMakeRecord (mkH6 "Q") [] none = none := by decide

/-- Claim C5 (amended): `extract_faq_claim` joins its fragments with a double
newline and records an empty answer string (not an error) for an empty fragment
sequence, while the Playwright handler joins its answer lines with a single newline
and records nothing when the line list is empty. -/
theorem c5_amended_join_policy (q : Node) (sibs : List Node) (cb : Option Node) :
    (mkClaimRecord q sibs).answer = joinWith "\n\n" (assembleClaim [] sibs) ∧
    pwMakeRecord q sibs cb =
      (if pwAnswer sibs cb = [] then none
       else some { question := pyStrip q.innerText, answer := joinWith "\n" (pwAnswer sibs cb) }) := by
  constructor
  · unfold mkClaimRecord
    by_cases h : assembleClaim [] sibs = [] <;> simp [h, joinWith]
  · rfl

/-! ### Claim C6 -/

theorem ordLines_length (ind : String) : ∀ (k : Nat) (ts : List String),
    (ordLines ind k ts).length = ts.length := by
  intro k ts
  induction ts generalizing k with
  | nil => rfl
  | cons t ts ih => simp [ordLines, ih]

theorem pwNestedLines_leaf (a : List String) (u : String) :
    pwNestedLines a (mkLi u) = a := rfl

theorem foldNest_ol (us : List String) : ∀ a : List String,
    (us.map mkLi).foldl (fun a ni => a ++ [pwNestMark true a ++ pyStrip ni.innerText]) a
      = a ++ ordLines "  " a.length (us.map pyStrip) := by
  induction us with
  | nil => intro a; simp [ordLines]
  | cons u us ih =>
    intro a
    rw [List.map_cons, List.foldl_cons, ih]
    simp [mkLi, Node.innerText_mk, pwNestMark, ordLines]

theorem foldNest_ul (us : List String) : ∀ a : List String,
    (us.map mkLi).foldl (fun a ni => a ++ [pwNestMark false a ++ pyStrip ni.innerText]) a
      = a ++ us.map (fun u => "  - " ++ pyStrip u) := by
  induction us with
  | nil => intro a; simp
  | cons u us ih =>
    intro a
    rw [List.map_cons, List.foldl_cons, ih]
    simp [mkLi, Node.innerText_mk, pwNestMark]

theorem foldTop_leaf (us : List String) : ∀ a : List String,
    (us.map mkLi).foldl
        (fun a item => pwNestedLines (a ++ [pwTopMark true a ++ pyStrip item.innerText]) item) a
      = a ++ ordLines "" a.length (us.map pyStrip) := by
  induction us with
  | nil => intro a; simp [ordLines]
  | cons u us ih =>
    intro a
    rw [List.map_cons, List.foldl_cons, pwNestedLines_leaf, ih]
    simp [mkLi, Node.innerText_mk, pwTopMark, ordLines, string_empty_append]

theorem filter_listTag_map_mkLi (us : List String) : (us.map mkLi).filter isListTag = [] := by
  induction us with
  | nil => rfl
  | cons u us ih =>
    rw [List.map_cons, List.filter_cons]
    have h : isListTag (mkLi u) = false := rfl
    simp [h, ih]

theorem nestedLines_olNestItem (tg : String) (t : String) (us : List String)
    (htg : tg = "ul" ∨ tg = "ol") : ∀ a : List String,
    pwNestedLines a (Node.mk "li" "" "" t [mkListNode tg us])
      = a ++ (if tg = "ol" then ordLines "  " a.length (us.map pyStrip)
              else us.map (fun u => "  - " ++ pyStrip u)) := by
  intro a
  have hNL : (mkListNode tg us).descendants.filter (fun n => n.tag == "li") = us.map mkLi := by
    simp [mkListNode, Node.descendants, Node.children_mk, descForest_map_mkLi, filter_li_map_mkLi]
  rcases htg with h | h <;> subst h
  · have hfl : (Node.mk "li" "" "" t [mkListNode "ul" us]).descendants.filter isListTag
        = [mkListNode "ul" us] := by
      have h1 : isListTag (Node.mk "ul" "" "" "" (us.map mkLi)) = true := rfl
      simp [Node.descendants, Node.children_mk, descForest, descTree_eq, mkListNode,
        descForest_map_mkLi, filter_listTag_map_mkLi, h1]
    unfold pwNestedLines
    rw [hfl, List.foldl_cons, List.foldl_nil, hNL]
    have := foldNest_ul us a
    simp only [if_neg (by decide : ¬("ul" : String) = "ol")]
    exact this
  · have hfl : (Node.mk "li" "" "" t [mkListNode "ol" us]).descendants.filter isListTag
        = [mkListNode "ol" us] := by
      have h1 : isListTag (Node.mk "ol" "" "" "" (us.map mkLi)) = true := rfl
      simp [Node.descendants, Node.children_mk, descForest, descTree_eq, mkListNode,
        descForest_map_mkLi, filter_listTag_map_mkLi, h1]
    unfold pwNestedLines
    rw [hfl, List.foldl_cons, List.foldl_nil, hNL]
    have := foldNest_ol us a
    simp only [if_pos (rfl : ("ol" : String) = "ol")]
    exact this

/-- Claim C6: in the Playwright handler, a list nested inside a list item is walked
one level deep, and each nested item produces a fragment indented by exactly two
leading spaces whose mark follows the nested list's own tag — a cumulative ordinal
for `ol`, a dash for `ul` — exactly as for top-level items. (The equation also
records that, because items are collected by a descendant query, nested items
reappear afterwards as unindented top-level fragments.) -/
theorem c6_nested_list_lines (acc : List String) (t tg : String) (us : List String)
    (htg : tg = "ul" ∨ tg = "ol") :
    pwStep acc (olNest t tg us) =
      ((acc ++ [toString (acc.length + 1) ++ ". " ++ pyStrip t])
        ++ (if tg = "ol" then ordLines "  " (acc.length + 1) (us.map pyStrip)
            else us.map (fun u => "  - " ++ pyStrip u)))
        ++ ordLines "" (acc.length + 1 + us.length) (us.map pyStrip) := by
  have hitems : (olNest t tg us).descendants.filter (fun n => n.tag == "li")
      = Node.mk "li" "" "" t [mkListNode tg us] :: us.map mkLi := by
    have hdesc : (olNest t tg us).descendants
        = Node.mk "li" "" "" t [mkListNode tg us]
            :: Node.mk tg "" "" "" (us.map mkLi) :: us.map mkLi := by
      simp [olNest, mkListNode, Node.descendants, Node.children_mk, descForest, descTree_eq,
        descForest_map_mkLi]
    rw [hdesc, List.filter_cons, List.filter_cons]
    have h1 : ((Node.mk "li" "" "" t [Node.mk tg "" "" "" (us.map mkLi)]).tag == "li") = true := rfl
    have h2 : ((Node.mk tg "" "" "" (us.map mkLi)).tag == "li") = false := by
      rcases htg with h | h <;> subst h <;> rfl
    simp only [h1, if_true, h2, Bool.false_eq_true, if_false, filter_li_map_mkLi, mkListNode]
  have e1 : pwStep acc (olNest t tg us)
      = ((olNest t tg us).descendants.filter (fun n => n.tag == "li")).foldl
          (fun a item => pwNestedLines (a ++ [pwTopMark true a ++ pyStrip item.innerText]) item)
          acc := rfl
  rw [e1, hitems, List.foldl_cons]
  have e2 := nestedLines_olNestItem tg t us htg
      (acc ++ [pwTopMark true acc ++ pyStrip (Node.mk "li" "" "" t [mkListNode tg us]).innerText])
  rw [e2, foldTop_leaf]
  have hlen : ((acc ++ [pwTopMark true acc ++ pyStrip (Node.mk "li" "" "" t [mkListNode tg us]).innerText])
      ++ (if tg = "ol" then ordLines "  " (acc ++ [pwTopMark true acc ++ pyStrip (Node.mk "li" "" "" t [mkListNode tg us]).innerText]).length (us.map pyStrip)
          else us.map (fun u => "  - " ++ pyStrip u))).length = acc.length + 1 + us.length := by
    rcases htg with h | h <;> subst h <;> simp [ordLines_length] <;> omega
  rw [hlen]
  simp only [Node.innerText_mk, pwTopMark, List.append_assoc]
  simp

/-- Claim C6 witness: the spec's scenario — an ordered item `A` with a nested
unordered child `X` — yields the indented continuation fragment. -/
theorem c6_nested_list_lines_witness :
    pwStep [] (olNest "A" "ul" ["X"]) = ["1. A", "  - X", "3. X"] := by
  rw [c6_nested_list_lines [] "A" "ul" ["X"] (Or.inl rfl)]
  decide

/-! ### Claim C7 -/

/-- Claim C7 counterexample: with no event URLs and zero discovered links, the
Playwright handler's URL list is empty — it is not the six hardcoded category URLs. -/
theorem c7_counterexample :
    playwrightResolveUrls [] [] = [] ∧
    playwrightResolveUrls [] [] ≠ get_default_faq_urls BASE_URL := by decide

/-- Claim C7 (amended): no resolver falls back from failed discovery to the
hardcoded list. When the caller supplies no URLs and discovery yields zero usable
links, the Playwright handler's URL list is empty (a navigation failure during
discovery instead aborts the whole run); the six hardcoded category URLs come from
`get_default_faq_urls`, which the prod-scraper and new-playwright handlers use
unconditionally without any discovery step. -/
theorem c7_amended_resolver (navHrefs : List String) (b : String)
    (hzero : navHrefs.filter (fun h => h ≠ "") = []) :
    playwrightResolveUrls [] navHrefs = [] ∧
    get_default_faq_urls b
      = [b ++ "/app/faq-general", b ++ "/app/faq-claim", b ++ "/app/faq-evidence",
         b ++ "/app/faq-report", b ++ "/app/finder-info", b ++ "/app/useful-link"] := by
  constructor
  · unfold playwrightResolveUrls
    rw [if_pos rfl, hzero]
    rfl
  · rfl

/-- Claim C7 amended witness: concrete discovery failure (one empty href) and the
six concrete default URLs. -/
theorem c7_amended_resolver_witness :
    playwrightResolveUrls [] [""] = [] ∧
    get_default_faq_urls "https://mycash.utah.gov"
      = ["https://mycash.utah.gov/app/faq-general", "https://mycash.utah.gov/app/faq-claim",
         "https://mycash.utah.gov/app/faq-evidence", "https://mycash.utah.gov/app/faq-report",
         "https://mycash.utah.gov/app/finder-info", "https://mycash.utah.gov/app/useful-link"] := by
  have h := c7_amended_resolver [""] "https://mycash.utah.gov" (by decide)
  exact ⟨h.1, by rw [h.2]; decide⟩

/-! ### Claim C8 -/

theorem mem_keys_dictInsert_self (d : List (String × List FaqRecord)) (k : String)
    (v : List FaqRecord) : k ∈ (dictInsert d k v).map Prod.fst := by
  unfold dictInsert
  by_cases h : d.any (fun p => p.1 == k) = true
  · rw [if_pos h]
    rw [List.any_eq_true] at h
    obtain ⟨p, hp, hpk⟩ := h
    rw [List.mem_map]
    refine ⟨(k, v), List.mem_map.mpr ⟨p, hp, by simp [hpk]⟩, rfl⟩
  · rw [if_neg h]
    simp

theorem mem_keys_dictInsert_mono (d : List (String × List FaqRecord)) (k a : String)
    (v : List FaqRecord) (ha : a ∈ d.map Prod.fst) : a ∈ (dictInsert d k v).map Prod.fst := by
  unfold dictInsert
  by_cases h : d.any (fun p => p.1 == k) = true
  · rw [if_pos h]
    rw [List.mem_map] at ha ⊢
    obtain ⟨p, hp, hpa⟩ := ha
    by_cases hpk : (p.1 == k) = true
    · refine ⟨(k, v), List.mem_map.mpr ⟨p, hp, by simp [hpk]⟩, ?_⟩
      have hk : p.1 = k := by simpa using hpk
      rw [← hpa, hk]
    · refine ⟨p, List.mem_map.mpr ⟨p, hp, by simp [hpk]⟩, hpa⟩
  · rw [if_neg h, List.map_append]
    exact List.mem_append_left _ ha

theorem prodFold_errors (urls : List String) (nav : String → Nat → NavResult) :
    ∀ st : ScrapeOutcomeProd, (urls.foldl (prodStep nav) st).errors = st.errors := by
  induction urls with
  | nil => intro st; rfl
  | cons u urls ih => intro st; rw [List.foldl_cons, ih]; rfl

theorem prodFold_keys (urls : List String) (nav : String → Nat → NavResult) :
    ∀ st : ScrapeOutcomeProd, ∀ a : String,
      (a ∈ st.grouped.map Prod.fst ∨ ∃ u ∈ urls, (extract_category_from_url u).2 = a) →
      a ∈ ((urls.foldl (prodStep nav) st).grouped.map Prod.fst) := by
  induction urls with
  | nil =>
    intro st a ha
    rcases ha with h | ⟨u, hu, _⟩
    · exact h
    · exact absurd hu (List.not_mem_nil u)
  | cons u urls ih =>
    intro st a ha
    rw [List.foldl_cons]
    have hfst : (scrape_single_category u (nav u)).1 = (extract_category_from_url u).2 := by
      unfold scrape_single_category
      generalize (extract_category_from_url u) = p
      show (scrapeAttempts p.1 p.2 (nav u) 0 3).1 = p.2
      unfold scrapeAttempts
      cases nav u 0 with
      | ok page => rfl
      | err m =>
        simp only
        unfold scrapeAttempts
        cases nav u 1 with
        | ok page => simp
        | err m1 =>
          simp only
          unfold scrapeAttempts
          cases nav u 2 with
          | ok page => simp
          | err m2 => simp
    rcases ha with h | ⟨w, hw, hwa⟩
    · exact ih _ a (Or.inl (mem_keys_dictInsert_mono _ _ _ _ h))
    · rcases List.mem_cons.mp hw with rfl | hw'
      · refine ih _ a (Or.inl ?_)
        show a ∈ (dictInsert st.grouped (scrape_single_category w (nav w)).1
          (scrape_single_category w (nav w)).2).map Prod.fst
        rw [hfst, hwa]
        exact mem_keys_dictInsert_self _ _ _
      · exact ih _ a (Or.inr ⟨w, hw', hwa⟩)

theorem scrape_single_category_allFail (u : String) (nv : Nat → NavResult)
    (h : ∀ k, (nv k).isErr = true) :
    scrape_single_category u nv = ((extract_category_from_url u).2, []) := by
  unfold scrape_single_category
  have h0 := h 0
  have h1 := h 1
  have h2 := h 2
  cases hn0 : nv 0 with
  | ok p => rw [hn0] at h0; simp [NavResult.isErr] at h0
  | err m0 =>
    cases hn1 : nv 1 with
    | ok p => rw [hn1] at h1; simp [NavResult.isErr] at h1
    | err m1 =>
      cases hn2 : nv 2 with
      | ok p => rw [hn2] at h2; simp [NavResult.isErr] at h2
      | err m2 => simp [scrapeAttempts, hn0, hn1, hn2]

/-- Claim C8 counterexample: a navigation failure on the single requested category
is converted into an empty result for that category, but the run's error list stays
empty — no error string for the category is appended, contradicting the claim. -/
theorem c8_counterexample :
    prodScrapeAll [c8Url] c8NavFail
      = { grouped := [("Claiming Property", [])], total := 0, errors := [] } := by decide

/-- Claim C8 (amended): a navigation failure is caught within that category's
processing — `scrape_single_category` exhausts its attempts and returns the
category name with an empty record sequence — and processing continues, so every
requested URL's category name is present in the grouped result; however, no error
string is appended: the run's error list is always empty, because navigation
failures never escape `scrape_single_category` and only escaping exceptions would
reach the error list. -/
theorem c8_amended_error_handling (urls : List String) (nav : String → Nat → NavResult) :
    (prodScrapeAll urls nav).errors = [] ∧
    (∀ u ∈ urls, (extract_category_from_url u).2 ∈ (prodScrapeAll urls nav).grouped.map Prod.fst) ∧
    (∀ (u : String) (nv : Nat → NavResult), (∀ k, (nv k).isErr = true) →
      scrape_single_category u nv = ((extract_category_from_url u).2, [])) := by
  refine ⟨prodFold_errors urls nav _, ?_, fun u nv h => scrape_single_category_allFail u nv h⟩
  intro u hu
  exact prodFold_keys urls nav _ _ (Or.inr ⟨u, hu, rfl⟩)

/-- Claim C8 amended witness: one URL whose navigation always fails — empty result
recorded under its category name, empty error list. -/
theorem c8_amended_error_handling_witness :
    (prodScrapeAll [c8Url] c8NavFail).errors = [] ∧
    "Claiming Property" ∈ (prodScrapeAll [c8Url] c8NavFail).grouped.map Prod.fst ∧
    scrape_single_category c8Url (c8NavFail c8Url) = ("Claiming Property", []) := by
  have h := c8_amended_error_handling [c8Url] c8NavFail
  refine ⟨h.1, ?_, ?_⟩
  · have hmem := h.2.1 c8Url (by simp)
    have hname : (extract_category_from_url c8Url).2 = "Claiming Property" := by decide
    rwa [hname] at hmem
  · have heq := h.2.2 c8Url (c8NavFail c8Url) (fun k => rfl)
    have hname : (extract_category_from_url c8Url).2 = "Claiming Property" := by decide
    rw [heq, hname]

/-! ### Claim C9 -/

theorem scrape_single_np_fst (u : String) (nv : NavResult) :
    (scrape_single_category_np u nv).1 = (extract_category_from_url u).2 := by
  unfold scrape_single_category_np
  cases nv <;> rfl

theorem npFold_keys (urls : List String) (nav : String → NavResult) :
    ∀ st : List (String × List FaqRecord) × Nat, ∀ a : String,
      (a ∈ st.1.map Prod.fst ∨ ∃ u ∈ urls, (extract_category_from_url u).2 = a) →
      a ∈ ((urls.foldl (npStep nav) st).1.map Prod.fst) := by
  induction urls with
  | nil =>
    intro st a ha
    rcases ha with h | ⟨u, hu, _⟩
    · exact h
    · exact absurd hu (List.not_mem_nil u)
  | cons u urls ih =>
    intro st a ha
    rw [List.foldl_cons]
    rcases ha with h | ⟨w, hw, hwa⟩
    · exact ih _ a (Or.inl (mem_keys_dictInsert_mono _ _ _ _ h))
    · rcases List.mem_cons.mp hw with rfl | hw'
      · refine ih _ a (Or.inl ?_)
        show a ∈ (dictInsert st.1 (scrape_single_category_np w (nav w)).1
          (scrape_single_category_np w (nav w)).2).map Prod.fst
        rw [scrape_single_np_fst, hwa]
        exact mem_keys_dictInsert_self _ _ _
      · exact ih _ a (Or.inr ⟨w, hw', hwa⟩)

theorem dictInsert_fresh (d : List (String × List FaqRecord)) (k : String) (v : List FaqRecord)
    (h : k ∉ d.map Prod.fst) : dictInsert d k v = d ++ [(k, v)] := by
  unfold dictInsert
  have hany : d.any (fun p => p.1 == k) = false := by
    rw [List.any_eq_false]
    intro p hp hpk
    exact h (List.mem_map.mpr ⟨p, hp, by simpa using hpk⟩)
  rw [hany]
  simp

theorem npFold_grouped (nav : String → NavResult) :
    ∀ (urls : List String) (st : List (String × List FaqRecord) × Nat),
      (urls.map (fun u => (extract_category_from_url u).2)).Nodup →
      (∀ u ∈ urls, (extract_category_from_url u).2 ∉ st.1.map Prod.fst) →
      (urls.foldl (npStep nav) st).1
        = st.1 ++ urls.map (fun u =>
            ((extract_category_from_url u).2, (scrape_single_category_np u (nav u)).2)) := by
  intro urls
  induction urls with
  | nil => intro st _ _; simp
  | cons u urls ih =>
    intro st hnd hfresh
    rw [List.map_cons, List.nodup_cons] at hnd
    obtain ⟨hu_not, hnd'⟩ := hnd
    rw [List.foldl_cons]
    have hstep : (npStep nav st u).1
        = st.1 ++ [((extract_category_from_url u).2, (scrape_single_category_np u (nav u)).2)] := by
      show (dictInsert st.1 (scrape_single_category_np u (nav u)).1
        (scrape_single_category_np u (nav u)).2) = _
      rw [scrape_single_np_fst]
      exact dictInsert_fresh _ _ _ (hfresh u (by simp))
    have hfresh' : ∀ w ∈ urls,
        (extract_category_from_url w).2 ∉ (npStep nav st u).1.map Prod.fst := by
      intro w hw
      rw [hstep, List.map_append, List.mem_append]
      rintro (h1 | h2)
      · exact hfresh w (List.mem_cons_of_mem _ hw) h1
      · have h3 : (extract_category_from_url w).2 = (extract_category_from_url u).2 := by
          simpa using h2
        exact hu_not (h3 ▸ (List.mem_map.mpr ⟨w, hw, rfl⟩))
    rw [ih (npStep nav st u) hnd' hfresh', hstep]
    simp [List.append_assoc]

/-- Claim C9: after the full URL list is processed by the new-playwright loop, the
grouped mapping has an entry for every requested URL's category name (the key is
present even when extraction yields zero records), and — when the requested names
are pairwise distinct — the mapping is exactly one entry per requested URL, in
order, whose value is that URL's extraction result (the empty sequence on
navigation failure or a question-less page, never an absent key). -/
theorem c9_category_keys_present (urls : List String) (nav : String → NavResult) :
    (∀ u ∈ urls, (extract_category_from_url u).2 ∈ (npScrapeAll urls nav).1.map Prod.fst) ∧
    ((urls.map (fun u => (extract_category_from_url u).2)).Nodup →
      (npScrapeAll urls nav).1
        = urls.map (fun u =>
            ((extract_category_from_url u).2, (scrape_single_category_np u (nav u)).2))) := by
  constructor
  · intro u hu
    exact npFold_keys urls nav _ _ (Or.inr ⟨u, hu, rfl⟩)
  · intro hnd
    have h := npFold_grouped nav urls ([], 0) hnd (by intro u hu; simp)
    simpa [npScrapeAll] using h

/-- Claim C9 witness: two URLs — a useful-link page loading with an empty document
and a claim page whose navigation fails — both category names present, both with the
empty sequence as value. -/
theorem c9_category_keys_present_witness :
    ("Useful Links" ∈ (npScrapeAll
        ["https://mycash.utah.gov/app/useful-link", "https://mycash.utah.gov/app/faq-claim"]
        (fun u => if u = "https://mycash.utah.gov/app/useful-link"
                  then NavResult.ok (Node.mk "html" "" "" "" []) else NavResult.err "boom")).1.map
        Prod.fst) ∧
    (npScrapeAll
        ["https://mycash.utah.gov/app/useful-link", "https://mycash.utah.gov/app/faq-claim"]
        (fun u => if u = "https://mycash.utah.gov/app/useful-link"
                  then NavResult.ok (Node.mk "html" "" "" "" []) else NavResult.err "boom")).1
      = [("Useful Links", []), ("Claiming Property", [])] := by
  have h := c9_category_keys_present
      ["https://mycash.utah.gov/app/useful-link", "https://mycash.utah.gov/app/faq-claim"]
      (fun u => if u = "https://mycash.utah.gov/app/useful-link"
                then NavResult.ok (Node.mk "html" "" "" "" []) else NavResult.err "boom")
  constructor
  · have hmem := h.1 "https://mycash.utah.gov/app/useful-link" (by simp)
    have hname : (extract_category_from_url "https://mycash.utah.gov/app/useful-link").2
        = "Useful Links" := by decide
    rwa [hname] at hmem
  · have h2 := h.2 (by decide)
    rw [h2]
    decide

/-! ### Claim C10 -/

theorem foldl_filterMap_links (ls : List Node) : ∀ acc : List FaqRecord,
    ls.foldl
      (fun acc a =>
        let link_text := pyStrip a.innerText
        let href := a.href
        if link_text = "" ∨ href = "" then acc
        else acc ++ [{ question := link_text,
                       answer := "[" ++ link_text ++ "](" ++ href ++ ")" }]) acc
    = acc ++ ls.filterMap (fun a =>
        if pyStrip a.innerText = "" ∨ a.href = "" then none
        else some { question := pyStrip a.innerText,
                    answer := "[" ++ pyStrip a.innerText ++ "](" ++ a.href ++ ")" }) := by
  induction ls with
  | nil => intro acc; simp
  | cons a ls ih =>
    intro acc
    by_cases hc : pyStrip a.innerText = "" ∨ a.href = "" <;>
      simp [ih, hc]

/-- Claim C10: `extract_useful_link` produces a record exactly for the links of the
content container whose stripped visible text is non-empty and whose `href` is
non-empty — links failing either check are skipped entirely — and each record pairs
the stripped link text with the markdown reference built from that text and the
`href`. -/
theorem c10_useful_link_records (page : Node) :
    extract_useful_link page
      = (match firstCardBody page with
         | none => []
         | some cb =>
           (cb.descendants.filter (fun n => n.tag == "a")).filterMap (fun a =>
             if pyStrip a.innerText = "" ∨ a.href = "" then none
             else some { question := pyStrip a.innerText,
                         answer := "[" ++ pyStrip a.innerText ++ "](" ++ a.href ++ ")" })) := by
  cases hcb : firstCardBody page with
  | none => simp [extract_useful_link, hcb]
  | some cb =>
    simp only [extract_useful_link, hcb]
    simpa using foldl_filterMap_links _ []
